import Mathlib

/-
Verification of the flexp `PickleCache` engine (src/flexp/flow/cache.py)
against its natural-language specification.

The development shallowly embeds the Python source, running under Python 3
(the module selects `PickleMixinP3` when `six.PY3` holds):

* Python values reachable from a pipeline ("chain") are modelled by `PyVal`:
  strings, flat opaque leaves (numbers, callables without `__dict__`, ...),
  sequences (`list` / `tuple`), mappings (`dict`), and attribute-bearing
  objects (anything with `__dict__`).  An object additionally records whether
  its class has a `process` method, and the modification time of its source
  file, both of which only the mtime/repr walks consult.
* The external serialization codec (`pickle.dumps`) is modelled by
  `pickleVal`, a concrete injective byte-string builder that fails exactly on
  values containing a non-serializable leaf, matching the spec's
  `serialize(any) -> bytes` / `SerializationError` contract.  Byte strings
  are modelled by `String`.
* The external hash (`hashlib.sha256(...).hexdigest()`) is modelled by
  `sha256hex`, an injective stand-in; claims about it only use the shape of
  the filename and propagation of equal/unequal inputs.
* Exceptions are modelled by explicit result constructors.
-/

/-- Model of a Python value as introspected by `PickleCache`.
`pyobj cls nm hasProcess srcMtime attrs` is an instance of class `cls` with
`__dict__` given by `attrs` (in insertion order), `nm` its `__name__`
attribute if any (functions), `hasProcess` whether `hasattr(obj, "process")`
holds and `srcMtime` the value `_get_object_mtime` resolves for it (that
helper catches `TypeError`/`OSError` and falls back to `0`, so it never
raises; we model its result directly).  `pyleaf cls ok payload` is an opaque
non-iterable leaf without `__dict__` whose pickled form is `payload`; `ok`
is false for non-serializable leaves. -/
inductive PyVal where
  | pystr (s : String)
  | pyleaf (cls : String) (ok : Bool) (payload : String)
  | pyseq (cls : String) (elems : List PyVal)
  | pydict (entries : List (String × PyVal))
  | pyobj (cls : String) (nm : Option String) (hasProcess : Bool) (srcMtime : Int)
      (attrs : List (String × PyVal))

/-- Model of `pickle.dumps` applied to a Python `str`. -/
def pickle_str (s : String) : String := "S(" ++ s ++ ")"

mutual

/-- Model of the external codec `pickle.dumps` (`PickleMixinP3.pickle`).
It serializes the whole object graph, recording object attributes in
insertion order (a pickled instance stores its `__dict__` in iteration
order), and fails with `PicklingError` exactly when the graph contains a
non-serializable leaf. -/
def pickleVal : PyVal → Except Unit String
  | .pystr s => .ok (pickle_str s)
  | .pyleaf _ ok payload => if ok then .ok ("B(" ++ payload ++ ")") else .error ()
  | .pyseq cls elems => do
      let es ← pickleList elems
      pure ("Q(" ++ cls ++ "|" ++ es ++ ")")
  | .pydict entries => do
      let es ← picklePairs entries
      pure ("D(" ++ es ++ ")")
  | .pyobj cls nm _ _ attrs => do
      let es ← picklePairs attrs
      pure ("O(" ++ cls ++ (match nm with | some n => "#" ++ n | none => "") ++ "|" ++ es ++ ")")

/-- Pickling of the elements of a sequence, in order. -/
def pickleList : List PyVal → Except Unit String
  | [] => .ok ""
  | v :: t => do
      let hd ← pickleVal v
      let tl ← pickleList t
      pure (hd ++ tl)

/-- Pickling of key/value entries of a mapping or `__dict__`, in insertion
order, so the result is sensitive to that order just as `pickle.dumps` is. -/
def picklePairs : List (String × PyVal) → Except Unit String
  | [] => .ok ""
  | (k, v) :: t => do
      let hd ← pickleVal v
      let tl ← picklePairs t
      pure (pickle_str k ++ hd ++ tl)

end

/-- Result of one call to `_object_dump_to_string` under Python 3:
`bs b` is a normal return of the byte string `b`; `estr` is the `return ""`
taken when `level > max_recursion_level` (a `str`, not `bytes`, under
Python 3); `exc` means the call raised (a `str` input reaches
`return dump_string + obj`, which is `bytes + str`, and a non-iterable leaf
reaches `enumerate(obj)` — both raise `TypeError` under Python 3). -/
inductive DumpRet where
  | bs (b : String)
  | estr
  | exc
deriving DecidableEq

/-- Contribution of one attribute value (or sequence element) to the dump.
The source wraps each element in
`try: dump += _object_dump_to_string(x, level+1) except: dump += pickle(x)`
with an outer `except PicklingError: pass`; so a normal `bytes` return is
appended, while an inner exception or the `str` return from beyond the
recursion cap (whose `bytes += str` concatenation raises `TypeError`) falls
back to `pickle(x)`, and a non-serializable `x` contributes nothing. -/
def contribBytes (r : DumpRet) (p : Except Unit String) : String :=
  match r with
  | .bs b => b
  | _ => match p with
    | .ok s => s
    | .error _ => ""

/-- Ordering of `(key, value)` pairs by key, used to model Python's
`sorted(...)` over `dict.items()` / `vars(...).items()` (distinct string
keys, so the comparison never reaches the values). -/
def keyLE {α : Type} (p q : String × α) : Prop := p.1 ≤ q.1

instance {α : Type} : DecidableRel (keyLE (α := α)) :=
  fun p q => inferInstanceAs (Decidable (p.1 ≤ q.1))

instance {α : Type} : IsTotal (String × α) keyLE := ⟨fun p q => le_total p.1 q.1⟩

instance {α : Type} : IsTrans (String × α) keyLE := ⟨fun _ _ _ h₁ h₂ => le_trans h₁ h₂⟩

/-- Model of `sorted(items)` for key/value pairs with string keys: a stable
sort by key. -/
def sortPairs {α : Type} (l : List (String × α)) : List (String × α) :=
  l.insertionSort keyLE

/-- Concatenation step of the dump loop over already-sorted pairs: for each
`(attribute, value)` pair the source appends the pickled attribute name
(the recursive call on a `str` key raises or returns a `str`, so the
`pickle(attribute)` fallback always runs) and then the value's
contribution. -/
def join_pairs : List (String × String) → String
  | [] => ""
  | (a, c) :: t => pickle_str a ++ c ++ join_pairs t

mutual

/-- Shallow embedding of `PickleCache._object_dump_to_string(obj, level)`
under Python 3, with `maxR` the configured `max_recursion_level`.
Branches, in source order: the `level > max_recursion_level` guard returns
the `str` `""` (`estr`); the class name (and `__name__` when present) is
encoded; a `str` input reaches `return dump_string + obj` which raises
`TypeError` (`bytes + str`); an object with `__dict__` takes
`sorted(vars(obj).items())`; a mapping takes `sorted(obj.items())`; an
iterable takes `[(str(i), o) for i, o in enumerate(obj)]` unsorted; a
non-iterable leaf raises `TypeError` inside `enumerate`. -/
def _object_dump_to_string (maxR : Nat) : PyVal → Nat → DumpRet
  | v, level =>
    if level > maxR then .estr
    else
      match v with
      | .pystr _ => .exc
      | .pyleaf _ _ _ => .exc
      | .pyobj cls nm _ _ attrs =>
          .bs (cls ++ (match nm with | some n => n | none => "") ++
            join_pairs (sortPairs (dump_pairs maxR attrs (level + 1))))
      | .pydict entries =>
          .bs ("dict" ++ join_pairs (sortPairs (dump_pairs maxR entries (level + 1))))
      | .pyseq cls elems =>
          .bs (cls ++ dump_seq maxR elems 0 (level + 1))

/-- Per-pair contributions `(key, contribution of value at level lv)` in
original order; the enclosing branch sorts them by key afterwards, which
coincides with Python's sort-then-dump because the sort is by key only. -/
def dump_pairs (maxR : Nat) : List (String × PyVal) → Nat → List (String × String)
  | [], _ => []
  | (a, v) :: t, lv =>
      (a, contribBytes (_object_dump_to_string maxR v lv) (pickleVal v)) ::
        dump_pairs maxR t lv

/-- Dump of the elements of an iterable via the `enumerate` branch: keys are
`str(i)` in enumeration order (this branch performs no sort). -/
def dump_seq (maxR : Nat) : List PyVal → Nat → Nat → String
  | [], _, _ => ""
  | v :: t, i, lv =>
      pickle_str (toString i) ++
        contribBytes (_object_dump_to_string maxR v lv) (pickleVal v) ++
        dump_seq maxR t (i + 1) lv

end

/-- Model of `hashlib.sha256(b).hexdigest()`: an injective stand-in for the
external cryptographic hash (collision-freedom idealized, as the spec treats
the digest as an identity for its input). -/
def sha256hex (b : String) : String := "sha(" ++ b ++ ")"

/-- Extract the byte string of a top-level dump.  `_get_chain_hash` calls
`_object_dump_to_string(chain)` at level 0 on the module list, which always
returns bytes (level 0 never exceeds the cap and a `list` is neither a `str`
nor a non-iterable leaf), so the other branches are unreachable there. -/
def dumpBytesOf : DumpRet → String
  | .bs b => b
  | _ => ""

/-- Shallow embedding of `PickleCache._get_chain_hash(chain)`: sha256 over
the structural dump of the module list (`b"".join` of the singleton list of
the dump). -/
def _get_chain_hash (maxR : Nat) (modules : List PyVal) : String :=
  sha256hex (dumpBytesOf (_object_dump_to_string maxR (.pyseq "list" modules) 0))


mutual

/-- Model of Python `repr` for the values of this development.  Default
object `repr` is `<Cls object at 0x...>`; the address is elided (it is
diagnostic text that none of the verified properties inspect). -/
def pyRepr : PyVal → String
  | .pystr s => "str(" ++ s ++ ")"
  | .pyleaf cls _ payload => "<" ++ cls ++ " " ++ payload ++ ">"
  | .pyseq _ elems => "[" ++ pyReprList elems ++ "]"
  | .pydict entries => "\x7b" ++ pyReprPairs entries ++ "\x7d"
  | .pyobj cls _ _ _ _ => "<" ++ cls ++ " object>"

/-- Comma-joined reprs of sequence elements. -/
def pyReprList : List PyVal → String
  | [] => ""
  | [v] => pyRepr v
  | v :: t => pyRepr v ++ ", " ++ pyReprList t

/-- Comma-joined reprs of mapping entries. -/
def pyReprPairs : List (String × PyVal) → String
  | [] => ""
  | [(k, v)] => "str(" ++ k ++ "): " ++ pyRepr v
  | (k, v) :: t => "str(" ++ k ++ "): " ++ pyRepr v ++ ", " ++ pyReprPairs t

end

/-- Model of `repr(vars(module))`: the `__dict__` repr in insertion order. -/
def reprVars (attrs : List (String × PyVal)) : String :=
  "\x7b" ++ pyReprPairs attrs ++ "\x7d"

/-- Model of `str(module.__class__)`. -/
def classStr (cls : String) : String := "<class " ++ cls ++ ">"

/-- Shallow embedding of `PickleCache._get_chain_mtime(chain)` applied to the
member list of an iterable.  `none` models a raised exception: iterating a
nonempty Python string yields its one-character substrings, each of which is
again a nonempty string and `isinstance(·, collections.Iterable)`, so the
walk re-enters itself forever on the same value and Python's recursion limit
raises `RecursionError`; likewise a mapping member is iterated over its keys,
so any nonempty string key diverges the same way, while an empty-string
member (or key) iterates zero members and contributes `max([0.]) = 0`.
An object whose class has a `process` method contributes the mtime resolved
by `_get_object_mtime` (which itself never raises); any other non-iterable
member is skipped.  The result is the maximum of `0.0` and all
contributions. -/
def _get_chain_mtime : List PyVal → Option Int
  | [] => some 0
  | .pystr s :: t =>
      if s.isEmpty then (_get_chain_mtime t).map (fun r => max 0 r) else none
  | .pyseq _ elems :: t => do
      let sub ← _get_chain_mtime elems
      let rest ← _get_chain_mtime t
      pure (max sub rest)
  | .pydict entries :: t =>
      if entries.all (fun e => e.1.isEmpty) then
        (_get_chain_mtime t).map (fun r => max 0 r)
      else none
  | .pyobj _ _ hasProcess srcMtime _ :: t =>
      if hasProcess then (_get_chain_mtime t).map (fun r => max srcMtime r)
      else _get_chain_mtime t
  | .pyleaf _ _ _ :: t => _get_chain_mtime t

/-- Pieces collected by `PickleCache._get_chain_repr(chain)` before the final
`" ".join`; `none` models the same `RecursionError` divergence on nonempty
string members (and nonempty mapping keys) as in the mtime walk.  A
sub-iterable contributes its own joined repr as one piece; an object with a
`process` method contributes two pieces (`str(module.__class__)` and
`repr(vars(module))`); any other member contributes `repr(module)`. -/
def _get_chain_repr_pieces : List PyVal → Option (List String)
  | [] => some []
  | .pystr s :: t =>
      if s.isEmpty then (_get_chain_repr_pieces t).map (fun r => "" :: r) else none
  | .pyseq _ elems :: t => do
      let sub ← _get_chain_repr_pieces elems
      let rest ← _get_chain_repr_pieces t
      pure (String.intercalate " " sub :: rest)
  | .pydict entries :: t =>
      if entries.all (fun e => e.1.isEmpty) then
        (_get_chain_repr_pieces t).map
          (fun r => String.intercalate " " (entries.map (fun _ => "")) :: r)
      else none
  | .pyobj cls _ hasProcess _ attrs :: t =>
      if hasProcess then
        (_get_chain_repr_pieces t).map (fun r => classStr cls :: reprVars attrs :: r)
      else
        (_get_chain_repr_pieces t).map
          (fun r => pyRepr (.pyobj cls none hasProcess 0 attrs) :: r)
  | .pyleaf cls ok payload :: t =>
      (_get_chain_repr_pieces t).map (fun r => pyRepr (.pyleaf cls ok payload) :: r)

/-- Shallow embedding of `PickleCache._get_chain_repr(chain)`. -/
def _get_chain_repr (modules : List PyVal) : Option String :=
  (_get_chain_repr_pieces modules).map (String.intercalate " ")

/-- Chains whose mtime/repr walks terminate: no nonempty string is reachable
as an iterated member (directly, through nested sequences, or as a mapping
key). -/
def chainSafe : List PyVal → Bool
  | [] => true
  | .pystr s :: t => s.isEmpty && chainSafe t
  | .pyseq _ elems :: t => chainSafe elems && chainSafe t
  | .pydict entries :: t => entries.all (fun e => e.1.isEmpty) && chainSafe t
  | .pyobj _ _ _ _ _ :: t => chainSafe t
  | .pyleaf _ _ _ :: t => chainSafe t

/-- The `chain_info` dictionary kept by `PickleCache`; the non-length fields
start out as `None` until `hash_chain` first fills them. -/
structure ChainInfo where
  chain_len : Nat
  chain_hash : Option String
  chain_mtime : Option Int
  chain_repr : Option String
deriving DecidableEq

/-- Shallow embedding of `PickleCache.hash_chain()`: the fingerprint is
recomputed only when the current module count differs from the stored
`chain_len`; `none` models an exception escaping from the recomputation
(in which case `self.chain_info` is left unassigned). -/
def hash_chain (maxR : Nat) (modules : List PyVal) (ci : ChainInfo) : Option ChainInfo :=
  if modules.length ≠ ci.chain_len then
    match _get_chain_mtime modules, _get_chain_repr modules with
    | some mt, some rp =>
        some ⟨modules.length, some (_get_chain_hash maxR modules), some mt, some rp⟩
    | _, _ => none
  else some ci

/-- A record (`data`) processed by the chain: a Python dict with string
keys, kept in insertion order. -/
abbrev Record := List (String × PyVal)

/-- Python `d[k]` lookup (dict keys are unique, so first match). -/
def lookupA {α : Type} : List (String × α) → String → Option α
  | [], _ => none
  | (k, v) :: t, key => if k = key then some v else lookupA t key

/-- Python `d[k] = v`: overwrite in place if the key is present (keeping its
position), else append. -/
def setA {α : Type} : List (String × α) → String → α → List (String × α)
  | [], k, v => [(k, v)]
  | (k0, v0) :: t, k, v => if k0 = k then (k0, v) :: t else (k0, v0) :: setA t k v

/-- Deletion of a path from the file system (`os.unlink`). -/
def removeA {α : Type} (l : List (String × α)) (k : String) : List (String × α) :=
  l.filter (fun p => p.1 ≠ k)

/-- The `for key, value in retrieved_data.items(): data[key] = value` merge
loop of `PickleCache.process`. -/
def mergeInto (d : Record) (kvs : Record) : Record :=
  kvs.foldl (fun acc p => setA acc p.1 p.2) d

/-- A key/value list with pairwise distinct keys (always true of lists that
model Python dicts). -/
def NodupKeys {α : Type} (l : List (String × α)) : Prop :=
  (l.map Prod.fst).Nodup

/-- The dictionary `PickleCache._process` stores for one record (the file
contents): the processed record, the early-stop flag, and the diagnostic
copies of `chain_repr` / `chain_mtime` from `chain_info`. -/
structure CacheEntry where
  data : Record
  stopped : Bool
  chain_repr : Option String
  chain_mtime : Option Int

/-- Contents of a cache file: either a well-formed pickled `CacheEntry`
(the codec round-trips entries it wrote), or a truncated/corrupted file on
which `pickle.load` raises `EOFError`. -/
inductive FileData where
  | entry (e : CacheEntry)
  | corrupt

/-- Process-wide state touched by `PickleCache.process`: the cache
directory contents, the garbage-collector-enabled flag (`gc.disable` /
`gc.enable`), and the warning-level log lines emitted so far (info/debug
log lines are not modelled). -/
structure World where
  fs : List (String × FileData)
  gcEnabled : Bool
  warnings : List String

/-- Exceptions `process`/`get_cache_file` can raise besides `StopIteration`:
`keyError` when the record lacks the identity field; `picklingError` when
the identity value cannot be pickled; `typeError` when `chain_hash` is still
`None` and is concatenated to a string. -/
inductive PyExc where
  | keyError
  | picklingError
  | typeError
deriving DecidableEq

/-- Outcome of one `process` call: normal return, a propagated
`StopIteration`, or another exception. -/
inductive Outcome where
  | ok
  | stop
  | exc (e : PyExc)
deriving DecidableEq

/-- Constructor-level state of a `PickleCache` instance as `process` uses
it: `directory`, `force`, `data_key`, `max_recursion_level`, and the current
`chain_info`. -/
structure PCState where
  directory : String
  force : Bool
  data_key : String
  max_recursion_level : Nat
  chain_info : ChainInfo

/-- The wrapped pipeline (`super(PickleCache, self).process(data)` in
`_process`): it mutates the record in place and either completes normally
(`false`) or raises `StopIteration` (`true`); the returned record is its
state at that point, possibly partially mutated. -/
abbrev Pipeline := Record → Record × Bool

/-- Shallow embedding of `PickleCache.get_cache_file(data)`:
`directory + "/" + sha256(pickle(data[data_key])).hexdigest() + chain_hash`.
A missing identity field raises `KeyError`; a non-picklable identity value
raises `PicklingError`; a still-unset (`None`) `chain_hash` raises
`TypeError` at the string concatenation. -/
def get_cache_file (pc : PCState) (data : Record) : Except PyExc String :=
  match lookupA data pc.data_key with
  | none => .error .keyError
  | some v =>
    match pickleVal v with
    | .error _ => .error .picklingError
    | .ok b =>
      match pc.chain_info.chain_hash with
      | none => .error .typeError
      | some ch => .ok (pc.directory ++ "/" ++ sha256hex b ++ ch)

/-- Shallow embedding of `PickleCache._check_time_consistency`: a warning is
logged exactly when the two modification times differ; nothing else
happens. -/
def _check_time_consistency (cache_mtime chain_mtime : Option Int) : List String :=
  if cache_mtime ≠ chain_mtime then ["Modification times do not correspond"] else []

/-- The warning logged when a cache file fails to unpickle with `EOFError`. -/
def corruptLoadWarning : String := "Failed to load cache item"

/-- Shallow embedding of `PickleCache._process(data, cache)`: run the wrapped
chain, catching `StopIteration` into the `stop` flag, and build the entry
stored under `chain_info["chain_hash"]` (the caller immediately re-indexes
the one-key dictionary, so the entry itself is modelled). -/
def _process (pc : PCState) (pipe : Pipeline) (data : Record) : CacheEntry × Bool :=
  let r := pipe data
  (⟨r.1, r.2, pc.chain_info.chain_repr, pc.chain_info.chain_mtime⟩, r.2)

/-- The `if not loaded:` block of `PickleCache.process`: run `_process`,
then `pickle.dump(cache, f)` the entry into the cache file opened with mode
`wb`.  The entry dictionary holds the processed record plus a `bool`, a
`str`-or-`None` and a `float`-or-`None`, all always picklable, so the dump
fails exactly when the record left by the pipeline contains a
non-serializable value; in that case `PicklingError` propagates to the
caller (nothing in `process` catches it), and because `open(file, "wb")`
truncates/creates the file before the dump runs, a truncated file — on
which a later load raises `EOFError` — is left behind at that path.  On a
successful dump the call returns normally; the `stop` flag returned by
`_process` is discarded here, mirroring the source
(`cache, stop = self._process(data, {})` with `stop` unused afterwards), so
the caller never sees `StopIteration` on this path. -/
def missPath (pc : PCState) (pipe : Pipeline) (w : World) (data : Record)
    (file : String) : Outcome × Record × World :=
  let pr := _process pc pipe data
  match picklePairs pr.1.data with
  | .error _ =>
      (.exc .picklingError, pr.1.data, ⟨setA w.fs file .corrupt, w.gcEnabled, w.warnings⟩)
  | .ok _ =>
      (.ok, pr.1.data, ⟨setA w.fs file (.entry pr.1), w.gcEnabled, w.warnings⟩)

/-- Shallow embedding of `PickleCache.process(data)`.  On an existing,
non-forced entry it disables the garbage collector, unpickles the file and
re-enables the collector; a `stopped` entry then raises `StopIteration`
(before the staleness check and before any merge), otherwise the staleness
warning may be logged and every field of the stored record is merged into
`data`.  If unpickling raises `EOFError`, the `gc.enable()` call is skipped
(the exception leaves the `with` block), the file is deleted, and control
falls through to the miss path with the collector still disabled.  A missing
file, or `force=True`, goes straight to the miss path. -/
def process (pc : PCState) (pipe : Pipeline) (w : World) (data : Record) :
    Outcome × Record × World :=
  match get_cache_file pc data with
  | .error e => (.exc e, data, w)
  | .ok file =>
    match lookupA w.fs file with
    | none => missPath pc pipe w data file
    | some fd =>
      if pc.force then missPath pc pipe w data file
      else
        match fd with
        | .corrupt =>
            missPath pc pipe
              ⟨removeA w.fs file, false, w.warnings ++ [corruptLoadWarning]⟩ data file
        | .entry e =>
            if e.stopped then
              (.stop, data, ⟨w.fs, true, w.warnings⟩)
            else
              (.ok, mergeInto data e.data,
                ⟨w.fs, true,
                  w.warnings ++
                    _check_time_consistency e.chain_mtime pc.chain_info.chain_mtime⟩)

theorem except_ok_bind {e a b : Type} (x : a) (f : a → Except e b) :
    (Except.ok x : Except e a) >>= f = f x := rfl

theorem lookupA_setA_self {α : Type} (l : List (String × α)) (k : String) (v : α) :
    lookupA (setA l k v) k = some v := by
  induction l with
  | nil => simp [setA, lookupA]
  | cons hd t ih =>
    by_cases h : hd.1 = k
    · simp [setA, h, lookupA]
    · simp [setA, h, lookupA, ih]

theorem lookupA_setA_ne {α : Type} (l : List (String × α)) (k k' : String) (v : α)
    (h : k' ≠ k) : lookupA (setA l k v) k' = lookupA l k' := by
  induction l with
  | nil => simp [setA, lookupA, Ne.symm h]
  | cons hd t ih =>
    by_cases hh : hd.1 = k
    · simp [setA, hh, lookupA, Ne.symm h]
    · simp only [setA, hh, if_false, lookupA, ih]

theorem lookupA_mergeInto_not_mem (d : Record) (kvs : Record) (k : String)
    (h : k ∉ kvs.map Prod.fst) : lookupA (mergeInto d kvs) k = lookupA d k := by
  induction kvs generalizing d with
  | nil => rfl
  | cons hd t ih =>
    simp only [List.map_cons, List.mem_cons, not_or] at h
    simpa [mergeInto] using (ih (setA d hd.1 hd.2) h.2).trans
      (lookupA_setA_ne d hd.1 k hd.2 h.1)

theorem lookupA_mergeInto_mem (d : Record) (kvs : Record) (k : String)
    (hn : NodupKeys kvs) (h : k ∈ kvs.map Prod.fst) :
    lookupA (mergeInto d kvs) k = lookupA kvs k := by
  induction kvs generalizing d with
  | nil => simp at h
  | cons hd t ih =>
    simp only [NodupKeys, List.map_cons, List.nodup_cons] at hn
    by_cases hk : hd.1 = k
    · have hnt : k ∉ t.map Prod.fst := hk ▸ hn.1
      have : lookupA (mergeInto (setA d hd.1 hd.2) t) k = lookupA (setA d hd.1 hd.2) k :=
        lookupA_mergeInto_not_mem _ t k hnt
      simpa [mergeInto, lookupA, hk] using this.trans (hk ▸ lookupA_setA_self d hd.1 hd.2)
    · simp only [List.map_cons, List.mem_cons] at h
      rcases h with h | h
      · exact absurd h.symm hk
      · simpa [mergeInto, lookupA, hk] using ih (setA d hd.1 hd.2) hn.2 h

theorem sortPairs_perm {α : Type} (l : List (String × α)) : (sortPairs l).Perm l :=
  List.perm_insertionSort keyLE l

theorem sortPairs_sorted {α : Type} (l : List (String × α)) :
    (sortPairs l).Sorted keyLE :=
  List.sorted_insertionSort keyLE l

/-- Key determinism lemma: sorting by key is insensitive to the incoming
order of a duplicate-free key/value list — the formal content of the spec's
"iteration is sorted by name/key, never by arbitrary internal order". -/
theorem sortPairs_congr_perm {α : Type} (l₁ l₂ : List (String × α))
    (hp : l₁.Perm l₂) (hn : (l₁.map Prod.fst).Nodup) :
    sortPairs l₁ = sortPairs l₂ := by
  have hperm : (sortPairs l₁).Perm (sortPairs l₂) :=
    ((sortPairs_perm l₁).trans hp).trans (sortPairs_perm l₂).symm
  have hn₁ : ((sortPairs l₁).map Prod.fst).Nodup :=
    (((sortPairs_perm l₁).map Prod.fst).nodup_iff).mpr hn
  have hn₂ : ((sortPairs l₂).map Prod.fst).Nodup :=
    (((sortPairs_perm l₂).map Prod.fst).nodup_iff).mpr ((hp.map Prod.fst).nodup_iff.mp hn)
  have hlt₁ : (sortPairs l₁).Pairwise (fun p q => p.1 < q.1) := by
    have hne : (sortPairs l₁).Pairwise (fun p q => p.1 ≠ q.1) := List.pairwise_map.mp hn₁
    exact ((sortPairs_sorted l₁).and hne).imp (fun h => lt_of_le_of_ne h.1 h.2)
  have hlt₂ : (sortPairs l₂).Pairwise (fun p q => p.1 < q.1) := by
    have hne : (sortPairs l₂).Pairwise (fun p q => p.1 ≠ q.1) := List.pairwise_map.mp hn₂
    exact ((sortPairs_sorted l₂).and hne).imp (fun h => lt_of_le_of_ne h.1 h.2)
  haveI : IsAntisymm (String × α) (fun p q => p.1 < q.1) :=
    ⟨fun _ _ h₁ h₂ => absurd h₂ (lt_asymm h₁)⟩
  exact List.eq_of_perm_of_sorted hperm hlt₁ hlt₂

theorem dump_pairs_eq_map (maxR : Nat) (l : List (String × PyVal)) (lv : Nat) :
    dump_pairs maxR l lv =
      l.map (fun p =>
        (p.1, contribBytes (_object_dump_to_string maxR p.2 lv) (pickleVal p.2))) := by
  induction l with
  | nil => simp [dump_pairs]
  | cons hd t ih => simp [dump_pairs, ih]

/-- The dump of an attribute-bearing object is invariant under permutation
of its (duplicate-free) `__dict__`, as long as the object itself lies within
the recursion cap: the per-pair contributions are computed pointwise and
then sorted by key. -/
theorem dump_obj_perm (maxR : Nat) (cls : String) (nm : Option String)
    (hp : Bool) (mt : Int) (a₁ a₂ : List (String × PyVal)) (level : Nat)
    (hlv : ¬ level > maxR) (hperm : a₁.Perm a₂) (hn : NodupKeys a₁) :
    _object_dump_to_string maxR (.pyobj cls nm hp mt a₁) level =
      _object_dump_to_string maxR (.pyobj cls nm hp mt a₂) level := by
  have hsort : sortPairs (dump_pairs maxR a₁ (level + 1)) =
      sortPairs (dump_pairs maxR a₂ (level + 1)) := by
    rw [dump_pairs_eq_map, dump_pairs_eq_map]
    refine sortPairs_congr_perm _ _ (hperm.map _) ?_
    simpa [List.map_map, Function.comp] using hn
  simp only [_object_dump_to_string, if_neg hlv, hsort]

theorem dump_seq_congr (maxR : Nat) (pre post : List PyVal) (v₁ v₂ : PyVal)
    (i lv : Nat)
    (h : contribBytes (_object_dump_to_string maxR v₁ lv) (pickleVal v₁) =
      contribBytes (_object_dump_to_string maxR v₂ lv) (pickleVal v₂)) :
    dump_seq maxR (pre ++ v₁ :: post) i lv = dump_seq maxR (pre ++ v₂ :: post) i lv := by
  induction pre generalizing i with
  | nil => simp [dump_seq, h]
  | cons hd t ih => simp [dump_seq, ih]

theorem chainSafe_mtime_isSome : ∀ ms : List PyVal, chainSafe ms = true →
    (_get_chain_mtime ms).isSome = true
  | [] => fun _ => by simp [_get_chain_mtime]
  | .pystr s :: t => fun h => by
      simp only [chainSafe, Bool.and_eq_true] at h
      have ht := chainSafe_mtime_isSome t h.2
      obtain ⟨a, ha⟩ := Option.isSome_iff_exists.mp ht
      simp [_get_chain_mtime, h.1, ha]
  | .pyseq c elems :: t => fun h => by
      simp only [chainSafe, Bool.and_eq_true] at h
      obtain ⟨a, ha⟩ := Option.isSome_iff_exists.mp (chainSafe_mtime_isSome elems h.1)
      obtain ⟨b, hb⟩ := Option.isSome_iff_exists.mp (chainSafe_mtime_isSome t h.2)
      simp [_get_chain_mtime, ha, hb]
  | .pydict entries :: t => fun h => by
      simp only [chainSafe, Bool.and_eq_true] at h
      obtain ⟨a, ha⟩ := Option.isSome_iff_exists.mp (chainSafe_mtime_isSome t h.2)
      simp [_get_chain_mtime, h.1, ha]
  | .pyobj c n hp mt attrs :: t => fun h => by
      simp only [chainSafe] at h
      obtain ⟨a, ha⟩ := Option.isSome_iff_exists.mp (chainSafe_mtime_isSome t h)
      cases hp <;> simp [_get_chain_mtime, ha]
  | .pyleaf c ok p :: t => fun h => by
      simp only [chainSafe] at h
      obtain ⟨a, ha⟩ := Option.isSome_iff_exists.mp (chainSafe_mtime_isSome t h)
      simp [_get_chain_mtime, ha]
termination_by ms => sizeOf ms

theorem chainSafe_pieces_isSome : ∀ ms : List PyVal, chainSafe ms = true →
    (_get_chain_repr_pieces ms).isSome = true
  | [] => fun _ => by simp [_get_chain_repr_pieces]
  | .pystr s :: t => fun h => by
      simp only [chainSafe, Bool.and_eq_true] at h
      obtain ⟨a, ha⟩ := Option.isSome_iff_exists.mp (chainSafe_pieces_isSome t h.2)
      simp [_get_chain_repr_pieces, h.1, ha]
  | .pyseq c elems :: t => fun h => by
      simp only [chainSafe, Bool.and_eq_true] at h
      obtain ⟨a, ha⟩ := Option.isSome_iff_exists.mp (chainSafe_pieces_isSome elems h.1)
      obtain ⟨b, hb⟩ := Option.isSome_iff_exists.mp (chainSafe_pieces_isSome t h.2)
      simp [_get_chain_repr_pieces, ha, hb]
  | .pydict entries :: t => fun h => by
      simp only [chainSafe, Bool.and_eq_true] at h
      obtain ⟨a, ha⟩ := Option.isSome_iff_exists.mp (chainSafe_pieces_isSome t h.2)
      simp [_get_chain_repr_pieces, h.1, ha]
  | .pyobj c n hp mt attrs :: t => fun h => by
      simp only [chainSafe] at h
      obtain ⟨a, ha⟩ := Option.isSome_iff_exists.mp (chainSafe_pieces_isSome t h)
      cases hp <;> simp [_get_chain_repr_pieces, ha]
  | .pyleaf c ok p :: t => fun h => by
      simp only [chainSafe] at h
      obtain ⟨a, ha⟩ := Option.isSome_iff_exists.mp (chainSafe_pieces_isSome t h)
      simp [_get_chain_repr_pieces, ha]
termination_by ms => sizeOf ms

/-- C6: for every record containing the identity field (whose value the
codec can serialize, with the chain hash computed), the on-disk cache path
returned by `get_cache_file` is the cache directory joined with the hex
digest of the serialized identity value immediately followed by the chain
structural hash, with no separator between the two digests. -/
theorem c6_cache_file_layout (pc : PCState) (data : Record) (v : PyVal)
    (b ch : String)
    (hv : lookupA data pc.data_key = some v)
    (hb : pickleVal v = .ok b)
    (hch : pc.chain_info.chain_hash = some ch) :
    get_cache_file pc data = .ok (pc.directory ++ "/" ++ sha256hex b ++ ch) := by
  simp [get_cache_file, hv, hb, hch]

/-- Concrete `PickleCache` state used by the evaluation theorems: directory
`dir`, identity field `id`, `force=False`, default recursion cap, computed
chain fingerprint. -/
def pcW : PCState := ⟨"dir", false, "id", 10, ⟨1, some "CH", some 7, some "RP"⟩⟩

/-- Concrete record with identity value `1`. -/
def dataW : Record := [("id", .pyleaf "int" true "1")]

/-- The cache path `get_cache_file` computes for `pcW` and `dataW`. -/
def fileW : String := "dir" ++ "/" ++ sha256hex "B(1)" ++ "CH"

theorem c6_cache_file_layout_witness :
    lookupA dataW pcW.data_key = some (.pyleaf "int" true "1") ∧
    pickleVal (.pyleaf "int" true "1") = .ok "B(1)" ∧
    get_cache_file pcW dataW = .ok ("dir" ++ "/" ++ sha256hex "B(1)" ++ "CH") :=
  ⟨by simp [dataW, pcW, lookupA], by simp [pickleVal],
    c6_cache_file_layout pcW dataW (.pyleaf "int" true "1") "B(1)" "CH"
      (by simp [dataW, pcW, lookupA]) (by simp [pickleVal]) rfl⟩

/-- C7: `hash_chain` recomputes the stored fingerprint exactly when the
current module count differs from the recorded `chain_len`; when the counts
are equal, the whole `chain_info` (all four fields) is left unchanged, no
matter how the modules' attributes have changed. -/
theorem c7_hash_chain_recompute_iff_len_changes (maxR : Nat)
    (modules : List PyVal) (ci : ChainInfo) :
    (modules.length = ci.chain_len → hash_chain maxR modules ci = some ci) ∧
    (modules.length ≠ ci.chain_len →
      hash_chain maxR modules ci =
        match _get_chain_mtime modules, _get_chain_repr modules with
        | some mt, some rp =>
            some ⟨modules.length, some (_get_chain_hash maxR modules), some mt, some rp⟩
        | _, _ => none) := by
  constructor
  · intro h
    simp [hash_chain, h]
  · intro h
    simp [hash_chain, h]

theorem c7_hash_chain_recompute_iff_len_changes_witness :
    ([PyVal.pyobj "M" none true 3 [("x", .pystr "old")]] : List PyVal).length =
      (⟨1, some "CH", some 7, some "RP"⟩ : ChainInfo).chain_len ∧
    hash_chain 10 [PyVal.pyobj "M" none true 3 [("x", .pystr "old")]]
      ⟨1, some "CH", some 7, some "RP"⟩ = some ⟨1, some "CH", some 7, some "RP"⟩ :=
  ⟨rfl,
    (c7_hash_chain_recompute_iff_len_changes 10
      [PyVal.pyobj "M" none true 3 [("x", .pystr "old")]]
      ⟨1, some "CH", some 7, some "RP"⟩).1 rfl⟩

/-- C10: on a non-forced hit whose entry has `stopped=True`, `process`
raises `StopIteration` before the staleness check and before any merge: the
caller's record is left exactly as passed in, the file system is untouched,
and this holds for every wrapped pipeline (the pipeline is not invoked). -/
theorem c10_stopped_hit_preserves_record (pc : PCState) (pipe : Pipeline)
    (w : World) (data : Record) (f : String) (e : CacheEntry)
    (hforce : pc.force = false)
    (hf : get_cache_file pc data = .ok f)
    (hfs : lookupA w.fs f = some (.entry e))
    (hstop : e.stopped = true) :
    process pc pipe w data = (.stop, data, ⟨w.fs, true, w.warnings⟩) := by
  simp [process, hf, hfs, hforce, hstop]

theorem c10_stopped_hit_preserves_record_witness :
    pcW.force = false ∧
    process pcW (fun _ => ([("x", .pystr "mutated")], false))
      ⟨[(fileW, .entry ⟨[("y", .pystr "cached")], true, some "RP", some 7⟩)], true, []⟩
      dataW =
      (.stop, dataW,
        ⟨[(fileW, .entry ⟨[("y", .pystr "cached")], true, some "RP", some 7⟩)], true, []⟩) :=
  ⟨rfl,
    c10_stopped_hit_preserves_record pcW (fun _ => ([("x", .pystr "mutated")], false))
      ⟨[(fileW, .entry ⟨[("y", .pystr "cached")], true, some "RP", some 7⟩)], true, []⟩
      dataW fileW ⟨[("y", .pystr "cached")], true, some "RP", some 7⟩
      rfl (by simp [get_cache_file, pcW, dataW, fileW, lookupA, pickleVal])
      (by simp [lookupA]) rfl⟩

/-- C3: when the cache file for the record exists but is corrupted (its
deserialization raises the end-of-data error), a non-forced `process` call
deletes the file, falls through to the wrapped pipeline, writes a fresh
entry for the same path, and returns normally — the deserialization error is
not propagated to the caller.  The record the pipeline leaves behind must
itself be serializable (`hser`): the spec treats a `SerializationError`
while building the entry for persistence as fatal, and on that path the
source's `pickle.dump` raises `PicklingError` instead of writing the
entry. -/
theorem c3_corrupt_entry_recovery (pc : PCState) (pipe : Pipeline) (w : World)
    (data : Record) (f : String) (s : String)
    (hforce : pc.force = false)
    (hf : get_cache_file pc data = .ok f)
    (hfs : lookupA w.fs f = some .corrupt)
    (hser : picklePairs (pipe data).1 = .ok s) :
    process pc pipe w data =
      (.ok, (pipe data).1,
        ⟨setA (removeA w.fs f) f
          (.entry ⟨(pipe data).1, (pipe data).2, pc.chain_info.chain_repr,
            pc.chain_info.chain_mtime⟩),
          false, w.warnings ++ [corruptLoadWarning]⟩) := by
  simp [process, hf, hfs, hforce, missPath, _process, hser]

theorem c3_corrupt_entry_recovery_witness :
    picklePairs (setA dataW "out" (.pystr "fresh")) = .ok "S(id)B(1)S(out)S(fresh)" ∧
    process pcW (fun d => (setA d "out" (.pystr "fresh"), false))
      ⟨[(fileW, .corrupt)], true, []⟩ dataW =
      (.ok, setA dataW "out" (.pystr "fresh"),
        ⟨setA (removeA [(fileW, .corrupt)] fileW) fileW
          (.entry ⟨setA dataW "out" (.pystr "fresh"), false, some "RP", some 7⟩),
          false, [] ++ [corruptLoadWarning]⟩) :=
  ⟨by simp [dataW, setA, picklePairs, pickleVal, pickle_str, except_ok_bind],
    c3_corrupt_entry_recovery pcW (fun d => (setA d "out" (.pystr "fresh"), false))
      ⟨[(fileW, .corrupt)], true, []⟩ dataW fileW "S(id)B(1)S(out)S(fresh)" rfl
      (by simp [get_cache_file, pcW, dataW, fileW, lookupA, pickleVal])
      (by simp [lookupA])
      (by simp [dataW, setA, picklePairs, pickleVal, pickle_str, except_ok_bind])⟩

/-- C8: on a non-forced hit whose entry has `stopped=False`, `process`
returns normally and merges every key/value pair of the stored record into
the caller's record — overwriting same-named fields, leaving fields absent
from the stored record untouched — and a mismatch between the stored chain
modification time and the engine's current one only contributes a warning
(the merge and the use of the cached value happen for all mtime pairs). -/
theorem c8_hit_merges_result_data (pc : PCState) (pipe : Pipeline) (w : World)
    (data : Record) (f : String) (e : CacheEntry)
    (hforce : pc.force = false)
    (hf : get_cache_file pc data = .ok f)
    (hfs : lookupA w.fs f = some (.entry e))
    (hstop : e.stopped = false)
    (hn : NodupKeys e.data) :
    process pc pipe w data =
      (.ok, mergeInto data e.data,
        ⟨w.fs, true,
          w.warnings ++ _check_time_consistency e.chain_mtime pc.chain_info.chain_mtime⟩) ∧
    (∀ k, k ∈ e.data.map Prod.fst →
      lookupA (mergeInto data e.data) k = lookupA e.data k) ∧
    (∀ k, k ∉ e.data.map Prod.fst →
      lookupA (mergeInto data e.data) k = lookupA data k) ∧
    (e.chain_mtime ≠ pc.chain_info.chain_mtime →
      _check_time_consistency e.chain_mtime pc.chain_info.chain_mtime ≠ []) := by
  refine ⟨?_, fun k hk => lookupA_mergeInto_mem data e.data k hn hk,
    fun k hk => lookupA_mergeInto_not_mem data e.data k hk, fun hne => ?_⟩
  · simp [process, hf, hfs, hforce, hstop]
  · simp [_check_time_consistency, hne]

/-- Cache entry used by the C8 witness: its stored mtime (99) differs from
the engine's current one (7), and it rewrites field `a` and adds field
`b`. -/
def entry8 : CacheEntry := ⟨[("a", .pystr "new"), ("b", .pystr "extra")], false, some "RP", some 99⟩

/-- Record used by the C8 witness: identity field plus a stale field `a`. -/
def data8 : Record := [("id", .pyleaf "int" true "1"), ("a", .pystr "old")]

theorem c8_hit_merges_result_data_witness :
    process pcW (fun d => (d, false)) ⟨[(fileW, .entry entry8)], true, []⟩ data8 =
      (.ok, mergeInto data8 entry8.data,
        ⟨[(fileW, .entry entry8)], true,
          [] ++ _check_time_consistency entry8.chain_mtime pcW.chain_info.chain_mtime⟩) ∧
    lookupA (mergeInto data8 entry8.data) "a" = some (.pystr "new") ∧
    lookupA (mergeInto data8 entry8.data) "id" = some (.pyleaf "int" true "1") ∧
    _check_time_consistency entry8.chain_mtime pcW.chain_info.chain_mtime ≠ [] := by
  have h := c8_hit_merges_result_data pcW (fun d => (d, false))
    ⟨[(fileW, .entry entry8)], true, []⟩ data8 fileW entry8 rfl
    (by simp [get_cache_file, pcW, data8, fileW, lookupA, pickleVal])
    (by simp [lookupA]) rfl (by simp [entry8, NodupKeys])
  refine ⟨h.1, ?_, ?_, h.2.2.2 (by simp [entry8, pcW])⟩
  · exact (h.2.1 "a" (by simp [entry8])).trans (by simp [entry8, lookupA])
  · exact (h.2.2.1 "id" (by simp [entry8])).trans (by simp [data8, lookupA])

/-- C5 counterexample: a chain whose member list contains the bare
one-character string `"a"` makes the fingerprint computation raise.
`_get_chain_mtime` tests `isinstance(module, collections.Iterable)`, which
holds for a string, and recurses into it; iterating `"a"` yields the very
same one-character string, so the walk re-enters itself with an unchanged
argument until Python's recursion limit raises `RecursionError` (modelled by
`none`); `_get_chain_repr` recurses identically, and `hash_chain` (which
runs both) propagates the exception. -/
theorem c5_string_member_diverges :
    _get_chain_mtime [PyVal.pystr "a"] = none ∧
    _get_chain_repr [PyVal.pystr "a"] = none ∧
    hash_chain 10 [PyVal.pystr "a"] ⟨0, none, none, none⟩ = none := by
  have ha : ("a" : String).isEmpty = false := by decide
  refine ⟨?_, ?_, ?_⟩ <;>
    simp [_get_chain_mtime, _get_chain_repr, _get_chain_repr_pieces, hash_chain, ha]

/-- C5 (amended): chain fingerprinting never raises provided no member
reachable by iteration (directly, through nested sequences, or as a mapping
key) is a nonempty string; on such chains the modification-time and
textual-representation walks return values, and the structural-hash dump of
the module list always returns bytes at the top level (for every recursion
cap), with non-serializable members skipped silently inside it. -/
theorem c5_fingerprint_total_on_safe_chains (maxR : Nat) (ms : List PyVal)
    (h : chainSafe ms = true) :
    (_get_chain_mtime ms).isSome = true ∧
    (_get_chain_repr ms).isSome = true ∧
    _object_dump_to_string maxR (.pyseq "list" ms) 0 =
      .bs ("list" ++ dump_seq maxR ms 0 1) := by
  refine ⟨chainSafe_mtime_isSome ms h, ?_, ?_⟩
  · obtain ⟨a, ha⟩ := Option.isSome_iff_exists.mp (chainSafe_pieces_isSome ms h)
    simp [_get_chain_repr, ha]
  · simp [_object_dump_to_string]

theorem c5_fingerprint_total_on_safe_chains_witness :
    chainSafe [PyVal.pyobj "M" none true 3 [("x", .pystr "v")]] = true ∧
    (_get_chain_mtime [PyVal.pyobj "M" none true 3 [("x", .pystr "v")]]).isSome = true ∧
    (_get_chain_repr [PyVal.pyobj "M" none true 3 [("x", .pystr "v")]]).isSome = true ∧
    _object_dump_to_string 10
      (.pyseq "list" [PyVal.pyobj "M" none true 3 [("x", .pystr "v")]]) 0 =
      .bs ("list" ++ dump_seq 10 [PyVal.pyobj "M" none true 3 [("x", .pystr "v")]] 0 1) :=
  ⟨by simp [chainSafe],
    c5_fingerprint_total_on_safe_chains 10 [PyVal.pyobj "M" none true 3 [("x", .pystr "v")]]
      (by simp [chainSafe])⟩

theorem dump_obj_eq (maxR : Nat) (cls : String) (nm : Option String) (hp : Bool)
    (mt : Int) (attrs : List (String × PyVal)) (lv : Nat) (hlv : ¬ lv > maxR) :
    _object_dump_to_string maxR (.pyobj cls nm hp mt attrs) lv =
      .bs ((cls ++ (match nm with | some n => n | none => "")) ++
        join_pairs (sortPairs (dump_pairs maxR attrs (lv + 1)))) := by
  simp [_object_dump_to_string, hlv]

/-- C9 (amended): the chain structural hash is invariant under permutation
of the (duplicate-free) attribute dictionary of a module, for every chain
context and every recursion cap of at least 1 — the cap that holds for the
default configuration; the sorted-by-key traversal makes the dump
independent of the dictionary's internal order. -/
theorem c9_hash_invariant_under_attr_permutation (maxR : Nat)
    (pre post : List PyVal) (cls : String) (nm : Option String) (hp : Bool)
    (mt : Int) (a₁ a₂ : List (String × PyVal))
    (hmax : 1 ≤ maxR) (hperm : a₁.Perm a₂) (hn : NodupKeys a₁) :
    _get_chain_hash maxR (pre ++ .pyobj cls nm hp mt a₁ :: post) =
      _get_chain_hash maxR (pre ++ .pyobj cls nm hp mt a₂ :: post) := by
  have hlv : ¬ (1 : Nat) > maxR := by omega
  have hobj := dump_obj_perm maxR cls nm hp mt a₁ a₂ 1 hlv hperm hn
  have hcontrib :
      contribBytes (_object_dump_to_string maxR (.pyobj cls nm hp mt a₁) 1)
        (pickleVal (.pyobj cls nm hp mt a₁)) =
      contribBytes (_object_dump_to_string maxR (.pyobj cls nm hp mt a₂) 1)
        (pickleVal (.pyobj cls nm hp mt a₂)) := by
    rw [hobj, dump_obj_eq maxR cls nm hp mt a₂ 1 hlv]
    simp [contribBytes]
  have hseq₁ : _object_dump_to_string maxR
      (.pyseq "list" (pre ++ .pyobj cls nm hp mt a₁ :: post)) 0 =
      .bs ("list" ++ dump_seq maxR (pre ++ .pyobj cls nm hp mt a₁ :: post) 0 1) := by
    simp [_object_dump_to_string]
  have hseq₂ : _object_dump_to_string maxR
      (.pyseq "list" (pre ++ .pyobj cls nm hp mt a₂ :: post)) 0 =
      .bs ("list" ++ dump_seq maxR (pre ++ .pyobj cls nm hp mt a₂ :: post) 0 1) := by
    simp [_object_dump_to_string]
  rw [_get_chain_hash, _get_chain_hash, hseq₁, hseq₂]
  simp only [dumpBytesOf]
  rw [dump_seq_congr maxR pre post _ _ 0 1 hcontrib]

theorem c9_hash_invariant_under_attr_permutation_witness :
    (1 : Nat) ≤ 10 ∧
    [("x", PyVal.pyleaf "int" true "1"), ("y", PyVal.pyleaf "int" true "2")].Perm
      [("y", PyVal.pyleaf "int" true "2"), ("x", PyVal.pyleaf "int" true "1")] ∧
    NodupKeys [("x", PyVal.pyleaf "int" true "1"), ("y", PyVal.pyleaf "int" true "2")] ∧
    _get_chain_hash 10
      [.pyobj "A" none false 0
        [("x", PyVal.pyleaf "int" true "1"), ("y", PyVal.pyleaf "int" true "2")]] =
    _get_chain_hash 10
      [.pyobj "A" none false 0
        [("y", PyVal.pyleaf "int" true "2"), ("x", PyVal.pyleaf "int" true "1")]] :=
  ⟨by omega, List.Perm.swap _ _ _, by simp [NodupKeys],
    c9_hash_invariant_under_attr_permutation 10 [] [] "A" none false 0
      [("x", PyVal.pyleaf "int" true "1"), ("y", PyVal.pyleaf "int" true "2")]
      [("y", PyVal.pyleaf "int" true "2"), ("x", PyVal.pyleaf "int" true "1")]
      (by omega) (List.Perm.swap _ _ _) (by simp [NodupKeys])⟩

/-- C9 counterexample: with the recursion cap configured to 0, the same
module with its attribute dictionary in two different internal orders is
dumped through the `pickle(value)` fallback (the object sits beyond the
cap), whose bytes depend on the dictionary's insertion order, so two
structurally identical chains hash differently. -/
theorem c9_beyond_cap_order_sensitivity :
    [("x", PyVal.pyleaf "int" true "1"), ("y", PyVal.pyleaf "int" true "2")].Perm
      [("y", PyVal.pyleaf "int" true "2"), ("x", PyVal.pyleaf "int" true "1")] ∧
    NodupKeys [("x", PyVal.pyleaf "int" true "1"), ("y", PyVal.pyleaf "int" true "2")] ∧
    _get_chain_hash 0
      [.pyobj "A" none false 0
        [("x", PyVal.pyleaf "int" true "1"), ("y", PyVal.pyleaf "int" true "2")]] ≠
    _get_chain_hash 0
      [.pyobj "A" none false 0
        [("y", PyVal.pyleaf "int" true "2"), ("x", PyVal.pyleaf "int" true "1")]] := by
  refine ⟨List.Perm.swap _ _ _, by simp [NodupKeys], ?_⟩
  simp only [_get_chain_hash, _object_dump_to_string, dump_seq, dump_pairs, sortPairs,
    List.insertionSort, List.orderedInsert, join_pairs, contribBytes, pickleVal,
    picklePairs, pickle_str, dumpBytesOf, sha256hex]
  decide

/-- C1: evaluation at the failing input.  With an empty cache and a wrapped
pipeline that raises `StopIteration`, the first `process` call persists an
entry with `stopped=True` but returns normally (outcome `ok`, not `stop`):
the `stop` flag returned by `_process` is discarded on the miss path, so
early termination is not re-signalled to the caller.  A second call on the
same record then finds the entry and does raise `StopIteration`, without
invoking its pipeline (the record is returned untouched even though the
second pipeline would have rewritten it). -/
theorem c1_miss_swallows_stop :
    process pcW (fun d => (d, true)) ⟨[], true, []⟩ dataW =
      (.ok, dataW, ⟨[(fileW, .entry ⟨dataW, true, some "RP", some 7⟩)], true, []⟩) ∧
    process pcW (fun _ => ([("x", .pystr "mutated")], false))
      ⟨[(fileW, .entry ⟨dataW, true, some "RP", some 7⟩)], true, []⟩ dataW =
      (.stop, dataW, ⟨[(fileW, .entry ⟨dataW, true, some "RP", some 7⟩)], true, []⟩) := by
  constructor
  · simp [process, get_cache_file, pcW, dataW, fileW, lookupA, pickleVal, picklePairs,
      pickle_str, except_ok_bind, missPath, _process, setA, sha256hex]
  · simp [process, get_cache_file, pcW, dataW, fileW, lookupA, pickleVal, sha256hex]

/-- C2: evaluation at the failing input.  On the corrupted-entry recovery
path, `pickle.load` raises `EOFError` after `gc.disable()` and before
`gc.enable()`, the handler deletes the file and falls through to the miss
path, and no code re-enables the collector: the call starts with the
garbage collector enabled and finishes with it disabled. -/
theorem c2_gc_left_disabled_on_corrupt :
    (⟨[(fileW, .corrupt)], true, []⟩ : World).gcEnabled = true ∧
    (process pcW (fun d => (d, false)) ⟨[(fileW, .corrupt)], true, []⟩ dataW).2.2.gcEnabled =
      false :=
  ⟨rfl, by
    simp [process, get_cache_file, pcW, dataW, fileW, lookupA, pickleVal, picklePairs,
      pickle_str, except_ok_bind, missPath, _process, sha256hex]⟩

/-- Nested object used by the C4 evaluation: `deepNest 0` is an instance of
class `B` with an empty `__dict__`; `deepNest (n+1)` is an instance of class
`A` whose only attribute `a` holds `deepNest n`.  In a chain, `deepNest 10`
is dumped at level 1, which places the `B` instance at level 11 — one step
beyond the default recursion cap of 10. -/
def deepNest : Nat → PyVal
  | 0 => .pyobj "B" none false 0 []
  | n + 1 => .pyobj "A" none false 0 [("a", deepNest n)]

/-- C4: evaluation at the failing input.  Dumping `deepNest 10` at level 1
with the default cap 10 does not raise, but the `B` instance encountered
beyond the cap contributes its full pickled form `O(B|)` (nonempty) to the
dump: the `level > max_recursion_level` guard returns the `str` `""`, the
`bytes += str` concatenation in the caller raises `TypeError`, and the bare
`except` then appends `pickle(value)` — rather than contributing no bytes. -/
theorem c4_beyond_depth_contributes_pickle :
    _object_dump_to_string 10 (deepNest 10) 1 =
      .bs ("AS(a)AS(a)AS(a)AS(a)AS(a)AS(a)AS(a)AS(a)AS(a)AS(a)" ++ "O(B|)") ∧
    pickleVal (deepNest 0) = .ok "O(B|)" ∧
    "O(B|)" ≠ "" := by
  refine ⟨?_, by simp [deepNest, pickleVal, picklePairs], by decide⟩
  simp [deepNest, _object_dump_to_string, dump_pairs, sortPairs, List.insertionSort,
    List.orderedInsert, join_pairs, contribBytes, pickleVal, picklePairs, pickle_str]
